import Mathlib

/-!
Shallow embedding of the voxflow real-time audio pipeline.

The definitions below are direct translations of the JavaScript source:
  * `src/services/audioProcessor.js`  (class `AudioProcessor`)
  * `src/services/streamServer.js`    (class `StreamServer`: audio shaping,
    packetization, `sendAudioToOzonetel`)
  * `src/services/streamingClient.js` (class `StreamingClient`: per-call
    session orchestration, transcription pipeline, hallucination filter)
  * `src/routes/designer.js`          (class `StreamClient`: `handleMediaEvent`
    and the first-16kHz-packet rule)

JavaScript numbers are modelled as `ℚ` (all arithmetic appearing in the code
is exact on the values involved: sums, quotients and `Math.round`/`Math.sqrt`
comparisons of integers and rationals), PCM samples as `ℤ`, byte buffers as
`List ℕ` with every entry < 256, and wall-clock instants (`Date.now()`)
as explicit `ℚ` millisecond parameters.  Per-call `Map` state keyed by ucid
is modelled as association lists.
-/

namespace VoxFlow

/-- JavaScript `Math.round`: round half toward positive infinity,
`Math.round x = ⌊x + 1/2⌋`. -/
def jsRound (q : ℚ) : ℤ := ⌊q + 1/2⌋

/-- Indexed map over a list, carrying the index of each element; the JS code
mutates `result[i]` in `for` loops, which is the same as rebuilding the list
with an index-aware function. -/
def mapWithIndex (f : ℕ → ℤ → ℤ) : ℕ → List ℤ → List ℤ
  | _, [] => []
  | i, s :: rest => f i s :: mapWithIndex f (i + 1) rest

/-! ## AudioProcessor (`src/services/audioProcessor.js`) -/

/-- Configuration of an `AudioProcessor`; the field defaults are the
`config.x || default` fallbacks of the constructor. -/
structure APConfig where
  minAudioDuration : ℚ := 1000
  maxAudioDuration : ℚ := 5000
  silenceThreshold : ℚ := 1000
  silenceAmplitude : ℚ := 100
  sampleRate : ℚ := 8000
  bitsPerSample : ℕ := 16
  channels : ℕ := 1
  deriving DecidableEq

/-- Mutable state of an `AudioProcessor` instance.  `lastAudioTime` is the
`Date.now()` timestamp (ms) of the last packet with detected voice
activity. -/
structure APState where
  config : APConfig
  samples : List ℤ
  totalSamples : ℕ
  lastAudioTime : ℚ
  consecutiveSilentPackets : ℕ
  deriving DecidableEq

/-- Constructor state of `AudioProcessor` created at time `now`. -/
def APState.init (config : APConfig) (now : ℚ) : APState :=
  { config := config, samples := [], totalSamples := 0,
    lastAudioTime := now, consecutiveSilentPackets := 0 }

/-- Voice-activity detection `detectAudioActivity`: the code computes `rms = sqrt(sumSq / n)` and
returns `rms > silenceAmplitude`.  For a nonnegative threshold `a` this is
equivalent to `sumSq / n > a^2`, which is how we state it so that the
definition stays inside `ℚ` (the thresholds used by the program are 100 and
300, both nonnegative). -/
def detectAudioActivity (cfg : APConfig) (samples : List ℤ) : Bool :=
  let sum : ℚ := ((samples.map (fun s => s * s)).sum : ℤ)
  decide (sum / samples.length > cfg.silenceAmplitude ^ 2)

/-- Method `addSamples(samples, sampleRate)`: empty input is a warning no-op;
otherwise append the samples, bump the total, and classify the packet as
voice (reset the silent counter, refresh `lastAudioTime`) or silence
(increment the counter).  The `sampleRate` argument is accepted and ignored,
exactly as in the source. -/
def APState.addSamples (st : APState) (samples : List ℤ) (_sampleRate : ℚ)
    (now : ℚ) : APState :=
  if samples.isEmpty then st
  else
    let st := { st with samples := st.samples ++ samples,
                        totalSamples := st.totalSamples + samples.length }
    if detectAudioActivity st.config samples then
      { st with lastAudioTime := now, consecutiveSilentPackets := 0 }
    else
      { st with consecutiveSilentPackets := st.consecutiveSilentPackets + 1 }

/-- Method `getDurationMs()`: `(totalSamples / sampleRate) * 1000`. -/
def APState.getDurationMs (st : APState) : ℚ :=
  ((st.totalSamples : ℚ) / st.config.sampleRate) * 1000

/-- Method `isSilent()`: the time since the last voice activity has reached the
silence threshold. -/
def APState.isSilent (st : APState) (now : ℚ) : Bool :=
  decide (now - st.lastAudioTime ≥ st.config.silenceThreshold)

/-- Method `shouldSendToAPI()`: forced flush once the accumulated duration reaches
the maximum; flush on silence only when the minimum duration has been
accumulated; otherwise do not flush. -/
def APState.shouldSendToAPI (st : APState) (now : ℚ) : Bool :=
  let duration := st.getDurationMs
  let hasMinAudio := decide (duration ≥ st.config.minAudioDuration)
  let hasMaxAudio := decide (duration ≥ st.config.maxAudioDuration)
  let silenceDetected := st.isSilent now
  if hasMaxAudio then true
  else if silenceDetected && hasMinAudio then true
  else if silenceDetected && !hasMinAudio then false
  else false

/-- Method `reset()`: clear the buffer and counters, refresh the timestamps. -/
def APState.reset (st : APState) (now : ℚ) : APState :=
  { st with samples := [], totalSamples := 0,
            lastAudioTime := now, consecutiveSilentPackets := 0 }

/-! ## WAV encoding (`toWAVBuffer`) -/

/-- Node `buffer.writeUInt16LE`: two little-endian bytes. -/
def uint16LE (v : ℕ) : List ℕ := [v % 256, v / 256 % 256]

/-- Node `buffer.writeUInt32LE`: four little-endian bytes. -/
def uint32LE (v : ℕ) : List ℕ :=
  [v % 256, v / 256 % 256, v / 65536 % 256, v / 16777216 % 256]

/-- Node `buffer.writeInt16LE`: the signed 16-bit sample in two's complement,
little endian. -/
def int16LE (s : ℤ) : List ℕ :=
  let u := (s % 65536).toNat
  [u % 256, u / 256]

/-- Byte image of the WAV file written by `toWAVBuffer`: 44-byte RIFF/WAVE
header followed by the 16-bit little-endian PCM samples.  The ASCII magic
strings are written out as their byte values ("RIFF", "WAVE", "fmt ",
"data"). -/
def wavBytes (cfg : APConfig) (samples : List ℤ) : List ℕ :=
  let bytesPerSample := cfg.bitsPerSample / 8
  let dataSize := samples.length * bytesPerSample
  let sampleRateN := cfg.sampleRate.num.toNat
  [82, 73, 70, 70] ++ uint32LE (36 + dataSize) ++
  [87, 65, 86, 69] ++
  [102, 109, 116, 32] ++ uint32LE 16 ++ uint16LE 1 ++
  uint16LE cfg.channels ++ uint32LE sampleRateN ++
  uint32LE (sampleRateN * cfg.channels * bytesPerSample) ++
  uint16LE (cfg.channels * bytesPerSample) ++ uint16LE cfg.bitsPerSample ++
  [100, 97, 116, 97] ++ uint32LE dataSize ++
  samples.flatMap int16LE

/-- Method `toWAVBuffer()`: `null` on an empty buffer, otherwise the encoded WAV
bytes of the accumulated samples. -/
def APState.toWAVBuffer (st : APState) : Option (List ℕ) :=
  if st.samples.length = 0 then none
  else some (wavBytes st.config st.samples)

/-! ### WAV decoder (specification side, for the round-trip property) -/

/-- Value of two little-endian bytes. -/
def fromLE2 (b0 b1 : ℕ) : ℕ := b0 + 256 * b1

/-- Value of four little-endian bytes. -/
def fromLE4 (b0 b1 b2 b3 : ℕ) : ℕ :=
  b0 + 256 * b1 + 65536 * b2 + 16777216 * b3

/-- Decode two little-endian bytes as a two's-complement signed 16-bit
integer. -/
def decInt16 (b0 b1 : ℕ) : ℤ :=
  let u := fromLE2 b0 b1
  if u < 32768 then (u : ℤ) else (u : ℤ) - 65536

/-- Decode a byte list as consecutive little-endian int16 samples. -/
def decodeSamplesLE : List ℕ → Option (List ℤ)
  | [] => some []
  | b0 :: b1 :: rest => (decodeSamplesLE rest).map (decInt16 b0 b1 :: ·)
  | _ => none

/-- Consume one expected byte. -/
def expectByte (b : ℕ) : List ℕ → Option (List ℕ)
  | [] => none
  | x :: rest => if x = b then some rest else none

/-- Consume an expected byte sequence. -/
def expectBytes : List ℕ → List ℕ → Option (List ℕ)
  | [], rest => some rest
  | b :: bs, rest => (expectByte b rest).bind (expectBytes bs)

/-- Read a little-endian 16-bit field. -/
def readU16 : List ℕ → Option (ℕ × List ℕ)
  | b0 :: b1 :: rest => some (fromLE2 b0 b1, rest)
  | _ => none

/-- Read a little-endian 32-bit field. -/
def readU32 : List ℕ → Option (ℕ × List ℕ)
  | b0 :: b1 :: b2 :: b3 :: rest => some (fromLE4 b0 b1 b2 b3, rest)
  | _ => none

/-- Header fields and samples recovered from a WAV byte buffer. -/
structure WavInfo where
  riffSize : ℕ
  numChannels : ℕ
  sampleRate : ℕ
  byteRate : ℕ
  blockAlign : ℕ
  bitsPerSample : ℕ
  dataSize : ℕ
  samples : List ℤ
  deriving DecidableEq

/-- Parse a little-endian RIFF/WAVE mono PCM container: magic strings, fmt
sub-chunk of size 16 with audio format 1 (PCM), header fields, and a data
sub-chunk whose declared size must match the remaining bytes, which are
decoded as int16 samples. -/
def decodeWAV (bytes : List ℕ) : Option WavInfo := do
  let r1 ← expectBytes [82, 73, 70, 70] bytes
  let (riffSize, r2) ← readU32 r1
  let r3 ← expectBytes [87, 65, 86, 69, 102, 109, 116, 32, 16, 0, 0, 0, 1, 0] r2
  let (numChannels, r4) ← readU16 r3
  let (sampleRate, r5) ← readU32 r4
  let (byteRate, r6) ← readU32 r5
  let (blockAlign, r7) ← readU16 r6
  let (bits, r8) ← readU16 r7
  let r9 ← expectBytes [100, 97, 116, 97] r8
  let (dataSize, r10) ← readU32 r9
  if riffSize = 36 + dataSize ∧ dataSize = r10.length then
    let samples ← decodeSamplesLE r10
    pure ⟨riffSize, numChannels, sampleRate, byteRate, blockAlign, bits,
          dataSize, samples⟩
  else none

/-! ## StreamServer audio shaping (`src/services/streamServer.js`) -/

/-- Method `_removeDCOffset`: subtract the arithmetic mean from every sample,
rounding each result (`Math.round(sample - mean)`).  Empty input is returned
unchanged. -/
def removeDCOffset (samples : List ℤ) : List ℤ :=
  if samples.isEmpty then samples
  else
    let mean : ℚ := ((samples.sum : ℤ) : ℚ) / samples.length
    samples.map (fun s : ℤ => jsRound ((s : ℚ) - mean))

/-- Method `_applyCrossfade`: when the stored last-emitted sample is nonzero,
linearly blend the first `min(20, length)` samples from that value toward
the chunk's own values; otherwise return the chunk unchanged. -/
def applyCrossfade (lastSample : ℤ) (samples : List ℤ) : List ℤ :=
  if samples.isEmpty then samples
  else if lastSample = 0 then samples
  else
    let fadeLength := min 20 samples.length
    mapWithIndex
      (fun i s =>
        if i < fadeLength then
          jsRound ((lastSample : ℚ) * (1 - (i : ℚ) / fadeLength) +
                   (s : ℚ) * ((i : ℚ) / fadeLength))
        else s)
      0 samples

/-- Method `_applyFadeoutPadding`: extend a short chunk to `targetSize` samples by a
linear fade from the chunk's last real sample (`samples[length-1] || 0`)
toward zero: the i-th synthetic sample is `round(lastValue * (1 - i/pad))`
where `pad` is the number of samples added. -/
def applyFadeoutPadding (samples : List ℤ) (targetSize : ℕ) : List ℤ :=
  if samples.length ≥ targetSize then samples
  else
    let paddingNeeded := targetSize - samples.length
    let lastValue := samples.getLast?.getD 0
    samples ++
      (List.range paddingNeeded).map
        (fun i : ℕ => jsRound ((lastValue : ℚ) * (1 - (i : ℚ) / paddingNeeded)))

/-- The packetization loop of `sendAudioToOzonetel`: slice the shaped samples
into 400-sample chunks, fade-out-pad a short final chunk, and keep every
chunk that ends up exactly 400 samples long (after padding they all do). -/
def chunkPackets (l : List ℤ) : List (List ℤ) :=
  if l.isEmpty then []
  else
    let chunk := l.take 400
    let padded := if chunk.length < 400 then applyFadeoutPadding chunk 400 else chunk
    (if padded.length = 400 then [padded] else []) ++ chunkPackets (l.drop 400)
termination_by l.length
decreasing_by
  rename_i h
  simp only [List.length_drop]
  have hne : l ≠ [] := by simpa [List.isEmpty_iff] using h
  have : 0 < l.length := List.length_pos.mpr hne
  omega

/-- One outbound `media` packet as built in `sendAudioToOzonetel`. -/
structure MediaPacket where
  ucid : String
  samples : List ℤ
  bitsPerSample : ℕ
  sampleRate : ℕ
  channelCount : ℕ
  numberOfFrames : ℕ
  deriving DecidableEq

/-- Build the outbound packet for one 400-sample chunk. -/
def mkMediaPacket (ucid : String) (chunk : List ℤ) : MediaPacket :=
  { ucid := ucid, samples := chunk, bitsPerSample := 16, sampleRate := 8000,
    channelCount := 1, numberOfFrames := chunk.length }

/-- A WebSocket's `readyState`; `WebSocket.OPEN = 1`. -/
structure Conn where
  readyState : ℕ
  deriving DecidableEq

/-- The per-call mutable state of the `StreamServer` that `sendAudioToOzonetel`
reads and writes: the `ucid → connection` map and the `_lastSamples`
crossfade-seed map, both keyed by ucid. -/
structure ServerState where
  ucidToConnection : List (String × Conn)
  lastSamples : List (String × ℤ)
  deriving DecidableEq

/-- The guard of `sendAudioToOzonetel` (and `sendControlMessage`):
`ws && ws.readyState === WebSocket.OPEN`. -/
def ServerState.hasLiveConnection (st : ServerState) (ucid : String) : Bool :=
  match st.ucidToConnection.lookup ucid with
  | some conn => decide (conn.readyState = 1)
  | none => false

/-- Insert-or-replace in an association list (`Map.set`). -/
def setAssoc (l : List (String × ℤ)) (k : String) (v : ℤ) : List (String × ℤ) :=
  (k, v) :: l.eraseP (fun p => p.1 = k)

/-- Method `sendAudioToOzonetel(ucid, samples)`: returns the success flag, the
updated server state, and the list of packets written to the socket.  With
no live connection it fails without touching any state; otherwise it removes
the DC offset, crossfades against the stored last-emitted sample
(`_lastSamples.get(ucid) || 0`), emits the 400-sample packets, and stores the
last sample of the shaped output for the next chunk's crossfade. -/
def sendAudioToOzonetel (st : ServerState) (ucid : String) (samples : List ℤ) :
    Bool × ServerState × List MediaPacket :=
  if st.hasLiveConnection ucid then
    let cleanedSamples := removeDCOffset samples
    let lastSample := (st.lastSamples.lookup ucid).getD 0
    let smoothedSamples := applyCrossfade lastSample cleanedSamples
    let packets := (chunkPackets smoothedSamples).map (mkMediaPacket ucid)
    let st' :=
      if smoothedSamples.isEmpty then st
      else { st with lastSamples :=
               setAssoc st.lastSamples ucid (smoothedSamples.getLast?.getD 0) }
    (true, st', packets)
  else
    (false, st, [])

/-- The shaped outbound audio of `sendAudioToOzonetel`: DC-offset removal
followed by the crossfade against the stored last-emitted sample. -/
def shapedAudio (st : ServerState) (ucid : String) (samples : List ℤ) : List ℤ :=
  applyCrossfade ((st.lastSamples.lookup ucid).getD 0) (removeDCOffset samples)

/-! ## StreamingClient (`src/services/streamingClient.js`)

The orchestrator keeps several `Map`s keyed by ucid (`streamingSessions`,
`audioProcessors`, `transcriptionBuffers`, `isTranscribing`, `isPlayingBack`).
All the guarded pipelines operate on a single call's entries, so we model the
projection of the client state onto one fixed ucid.  Two ghost counters
instrument the model: `pipelineRuns` counts entries into the guarded body of
`processAudioChunk`, and `transcribeCalls` counts invocations of the external
OpenAI transcription collaborator. -/

/-- JavaScript `String.prototype.trim`: strip leading and trailing
whitespace. -/
def jsTrim (s : String) : String :=
  String.mk
    (((s.toList.dropWhile Char.isWhitespace).reverse.dropWhile
        Char.isWhitespace).reverse)

/-- Lower-case a string character by character (the effect of a
case-insensitive JS regex on its literal pattern). -/
def lowerStr (s : String) : String := String.mk (s.toList.map Char.toLower)

/-- The hallucination blocklist of `isValidTranscription`, applied to the
trimmed text: `/^thank you\.?$/i`, `/^thanks\.?$/i`, `/^you$/i`, `/^\.{3,}$/`,
`/^\s*$/`, `/^[\s\.,!?]+$/`. -/
def isHallucination (t : String) : Bool :=
  (lowerStr t = "thank you" || lowerStr t = "thank you.") ||
  (lowerStr t = "thanks" || lowerStr t = "thanks.") ||
  (lowerStr t = "you") ||
  (decide (3 ≤ t.toList.length) && t.toList.all (fun c => c = '.')) ||
  (t.toList.all Char.isWhitespace) ||
  (decide (t.toList ≠ []) &&
    t.toList.all (fun c => c.isWhitespace || c = '.' || c = ',' || c = '!' || c = '?'))

/-- Filter `isValidTranscription(text)`: reject empty/short text (trimmed length
below 2 — `!text` is subsumed because an empty string trims to length 0) and
any text matching one of the hallucination patterns. -/
def isValidTranscription (text : String) : Bool :=
  if (jsTrim text).toList.length < 2 then false
  else !(isHallucination (jsTrim text))

/-- One entry of `streamingSessions`. -/
structure SessionData where
  language : String
  voice : String
  totalAudioMs : ℚ
  transcriptionChunks : ℕ
  playbackChunks : ℕ
  deriving DecidableEq

/-- One entry of `transcriptionBuffers`. -/
structure TBuffer where
  partialText : String
  finalText : String
  language : String
  deriving DecidableEq

/-- Projection of the `StreamingClient` state onto one call id, plus the two
ghost counters described above and `responseAttempts`, which counts
invocations of `generateAndPlayResponse`. -/
structure ClientState where
  session : Option SessionData
  processor : Option APState
  tbuffer : Option TBuffer
  transcribing : Bool
  playingBack : Bool
  pipelineRuns : ℕ
  transcribeCalls : ℕ
  responseAttempts : ℕ
  deriving DecidableEq

/-- The `AudioProcessor` configuration built in `handleStreamStart`:
`minAudioDuration = minSpeechDuration (1500)`,
`maxAudioDuration = streamingBufferMs * 2 (4000)`,
`silenceThreshold = 1000`, `silenceAmplitude = 300`, `sampleRate = 8000`. -/
def streamingAPConfig : APConfig :=
  { minAudioDuration := 1500, maxAudioDuration := 4000,
    silenceThreshold := 1000, silenceAmplitude := 300, sampleRate := 8000 }

/-- Method `handleStreamStart`: initialize the session record, the tuned
`AudioProcessor`, the transcription buffer, and clear both guard flags. -/
def handleStreamStart (language voice : String) (now : ℚ) : ClientState :=
  { session := some { language := language, voice := voice, totalAudioMs := 0,
                      transcriptionChunks := 0, playbackChunks := 0 },
    processor := some (APState.init streamingAPConfig now),
    tbuffer := some { partialText := "", finalText := "", language := language },
    transcribing := false, playingBack := false,
    pipelineRuns := 0, transcribeCalls := 0, responseAttempts := 0 }

/-- Quality gate `validateAudioChunk(processor)`: require at least 1000 ms of audio and an
RMS energy of at least 250 (compared in squares, as for
`detectAudioActivity`; 250 ≥ 0). -/
def validateAudioChunk (proc : APState) : Bool :=
  if proc.getDurationMs < 1000 then false
  else
    let sum : ℚ := ((proc.samples.map (fun s => s * s)).sum : ℤ)
    decide (sum / proc.samples.length ≥ 250 ^ 2)

/-- Outcome of the external OpenAI transcription call: either the collaborator
throws, or it returns a transcription text and detected language. -/
inductive TranscribeOutcome
  | error (msg : String)
  | success (text : String) (detectedLanguage : String)
  deriving DecidableEq

/-- Outcome of `flowEngine.executeConversationalFlow`: resolves `true`,
resolves `false`, or throws. -/
inductive FlowOutcome
  | ok
  | failed
  | threw
  deriving DecidableEq

/-- Method `generateAndPlayResponse(ucid, userText)`: skip when the session is gone
or playback is already in flight; otherwise set `playingBack`, run the flow
engine (counting a success in `playbackChunks`), and always clear
`playingBack` in the `finally`. -/
def generateAndPlayResponse (st : ClientState) (flow : FlowOutcome) : ClientState :=
  match st.session with
  | none => st
  | some sess =>
    if st.playingBack then st
    else
      match flow with
      | .ok =>
        { st with playingBack := false,
                  session := some { sess with playbackChunks := sess.playbackChunks + 1 } }
      | .failed => { st with playingBack := false }
      | .threw => { st with playingBack := false }

/-- The part of `streamTranscription` that runs after the OpenAI call
returned: trim the text, drop it if `isValidTranscription` rejects it,
otherwise append it to the transcription buffer (space-separated), record the
detected language, and — when the text is nonempty and no playback is in
flight — invoke `generateAndPlayResponse`. -/
def streamTranscriptionResult (st : ClientState) (rawText : String)
    (detectedLanguage : String) (flow : FlowOutcome) : ClientState :=
  let txt := jsTrim rawText
  if !isValidTranscription txt then st
  else
    let st :=
      { st with tbuffer := st.tbuffer.map (fun b =>
          { b with
            finalText := (b.finalText ++ (if b.finalText ≠ "" then " " else "")) ++ txt,
            language := detectedLanguage }) }
    if txt ≠ "" && !st.playingBack then
      generateAndPlayResponse { st with responseAttempts := st.responseAttempts + 1 } flow
    else st

/-- Method `processAudioChunk(ucid)`: the guarded transcribe-and-respond pipeline.
Missing components or an already-set `transcribing` flag are early-return
no-ops.  Inside the guard: produce the WAV buffer (bail out if empty), apply
the quality gate (resetting the processor on rejection), invoke the external
transcription (its outcome is the `outcome` parameter; a throw is caught),
then reset the processor and count the chunk; the `finally` clears
`transcribing` on every path. -/
def processAudioChunk (st : ClientState) (now : ℚ) (outcome : TranscribeOutcome)
    (flow : FlowOutcome) : ClientState :=
  match st.processor, st.session, st.tbuffer with
  | some proc, some _, some _ =>
    if st.transcribing then st
    else
      let st := { st with transcribing := true,
                          pipelineRuns := st.pipelineRuns + 1 }
      match proc.toWAVBuffer with
      | none => { st with transcribing := false }
      | some _ =>
        if !validateAudioChunk proc then
          { st with processor := some (proc.reset now), transcribing := false }
        else
          let st := { st with transcribeCalls := st.transcribeCalls + 1 }
          match outcome with
          | .error _ => { st with transcribing := false }
          | .success txt lang =>
            let st := streamTranscriptionResult st txt lang flow
            { st with processor := some (proc.reset now),
                      session := st.session.map (fun s =>
                        { s with transcriptionChunks := s.transcriptionChunks + 1 }),
                      transcribing := false }
  | _, _, _ => st

/-- The accumulation part of `handleAudioChunk`: add the samples to the
processor and count the audio milliseconds on the session, without the
flush check. -/
def accumulateOnly (st : ClientState) (samples : List ℤ) (sampleRate : ℚ)
    (now : ℚ) : ClientState :=
  match st.processor, st.session with
  | some proc, some sess =>
    if samples.isEmpty then st
    else
      { st with
          processor := some (proc.addSamples samples sampleRate now),
          session := some { sess with totalAudioMs :=
            sess.totalAudioMs + ((samples.length : ℚ) / sampleRate) * 1000 } }
  | _, _ => st

/-- Method `handleAudioChunk`: drop chunks for unknown sessions and empty sample
arrays; otherwise accumulate, and when `shouldSendToAPI()` holds and
`transcribing` is not set, run the transcribe pipeline. -/
def handleAudioChunk (st : ClientState) (samples : List ℤ) (sampleRate : ℚ)
    (now : ℚ) (outcome : TranscribeOutcome) (flow : FlowOutcome) : ClientState :=
  match st.processor, st.session with
  | some proc, some _ =>
    if samples.isEmpty then st
    else
      let proc' := proc.addSamples samples sampleRate now
      let st' := accumulateOnly st samples sampleRate now
      if proc'.shouldSendToAPI now && !st'.transcribing then
        processAudioChunk st' now outcome flow
      else st'
  | _, _ => st

/-! ## Designer-route StreamClient (`src/routes/designer.js`, class
`StreamClient`): inbound `media` handling with the first-16kHz-packet
rule. -/

/-- One inbound `media` event's `data` payload. -/
structure InMediaData where
  samples : List ℤ
  bitsPerSample : ℕ
  sampleRate : ℕ
  channelCount : ℕ
  numberOfFrames : ℕ
  deriving DecidableEq

/-- The `currentCall` record created by `handleStartEvent`. -/
structure CurrentCall where
  ucid : String
  mediaPackets : ℕ
  firstMediaReceived : Bool
  deriving DecidableEq

/-- Projection of the designer `StreamClient` state used by
`handleMediaEvent`: the `currentCall` record and the call's `audioBuffers`
entry.  The ghost counter `transcriptionTriggers` counts the periodic
`processAudioForTranscription` invocations (every 50th packet). -/
structure DesignerState where
  currentCall : Option CurrentCall
  audioBuffer : Option (List InMediaData)
  transcriptionTriggers : ℕ
  deriving DecidableEq

/-- State after `handleStartEvent(ucid)`: fresh `currentCall` with
`mediaPackets = 0` and `firstMediaReceived = false`, and an empty audio
buffer for the ucid. -/
def handleStartEvent (ucid : String) : DesignerState :=
  { currentCall := some { ucid := ucid, mediaPackets := 0, firstMediaReceived := false },
    audioBuffer := some [], transcriptionTriggers := 0 }

/-- Method `handleMediaEvent(message)`: drop media for an unknown call; ignore the
first packet when its `sampleRate` is 16000 (only marking
`firstMediaReceived`); for 8 kHz packets, count the packet, append it to the
call's audio buffer, and trigger the periodic transcription every 50th
packet. -/
def handleMediaEvent (st : DesignerState) (ucid : String) (data : InMediaData) :
    DesignerState :=
  match st.currentCall with
  | none => st
  | some cc =>
    if cc.ucid ≠ ucid then st
    else if !cc.firstMediaReceived && decide (data.sampleRate = 16000) then
      { st with currentCall := some { cc with firstMediaReceived := true } }
    else
      let cc := { cc with firstMediaReceived := true }
      if data.sampleRate = 8000 then
        let cc := { cc with mediaPackets := cc.mediaPackets + 1 }
        let st := { st with currentCall := some cc,
                            audioBuffer := st.audioBuffer.map (· ++ [data]) }
        if cc.mediaPackets % 50 = 0 && !data.samples.isEmpty then
          { st with transcriptionTriggers := st.transcriptionTriggers + 1 }
        else st
      else { st with currentCall := some cc }

/-! ## Claims -/

theorem mapWithIndex_length (f : ℕ → ℤ → ℤ) (n : ℕ) (l : List ℤ) :
    (mapWithIndex f n l).length = l.length := by
  induction l generalizing n with
  | nil => rfl
  | cons s rest ih => simp [mapWithIndex, ih]

theorem mapWithIndex_get? (f : ℕ → ℤ → ℤ) (n : ℕ) (l : List ℤ) (i : ℕ) :
    (mapWithIndex f n l).get? i = (l.get? i).map (f (n + i)) := by
  induction l generalizing n i with
  | nil => simp [mapWithIndex]
  | cons s rest ih =>
    cases i with
    | zero => simp [mapWithIndex]
    | succ j =>
      simp only [mapWithIndex, List.get?_cons_succ, ih (n + 1) j]
      have : n + 1 + j = n + (j + 1) := by omega
      rw [this]

/-- C2: for every buffer state, `shouldSendToAPI` (the spec's `shouldFlush`)
returns true if the accumulated duration is at least `maxAudioDurationMs`
(regardless of silence); otherwise true if silence has persisted at least
`silenceThresholdMs` and the duration is at least `minAudioDurationMs`;
otherwise false — in particular false whenever silence has persisted past the
threshold but the duration is below the minimum. -/
theorem shouldFlush_spec (st : APState) (now : ℚ) :
    (st.config.maxAudioDuration ≤ st.getDurationMs →
      st.shouldSendToAPI now = true) ∧
    (st.getDurationMs < st.config.maxAudioDuration →
      (st.isSilent now = true → st.config.minAudioDuration ≤ st.getDurationMs →
        st.shouldSendToAPI now = true) ∧
      (st.isSilent now = true → st.getDurationMs < st.config.minAudioDuration →
        st.shouldSendToAPI now = false) ∧
      (st.isSilent now = false → st.shouldSendToAPI now = false)) := by
  unfold APState.shouldSendToAPI
  by_cases hmax : st.config.maxAudioDuration ≤ st.getDurationMs
  · refine ⟨fun _ => by simp [hmax], fun hlt => absurd hmax (not_le.mpr hlt)⟩
  · have hmax' : ¬ st.getDurationMs ≥ st.config.maxAudioDuration := hmax
    refine ⟨fun h => absurd h hmax, fun _ => ⟨?_, ?_, ?_⟩⟩
    · intro hsil hmin
      simp [hmax', hsil, hmin]
    · intro hsil hmin
      have hmin' : ¬ st.getDurationMs ≥ st.config.minAudioDuration := not_le.mpr hmin
      simp [hmax', hsil, hmin']
    · intro hsil
      simp [hmax', hsil]

/-- Witness for C2 at a concrete state: with the default configuration,
40000 accumulated samples at 8 kHz are 5000 ms ≥ `maxAudioDurationMs`, and
`shouldSendToAPI` is true even with voice activity just observed
(`now = lastAudioTime`, i.e. no silence). -/
theorem shouldFlush_spec_witness :
    ({} : APConfig).maxAudioDuration ≤
      (APState.mk {} [] 40000 1000 0).getDurationMs ∧
    (APState.mk {} [] 40000 1000 0).shouldSendToAPI 1000 = true := by
  have h : ({} : APConfig).maxAudioDuration ≤
      (APState.mk {} [] 40000 1000 0).getDurationMs := by
    norm_num [APState.getDurationMs, APConfig.maxAudioDuration]
  exact ⟨h, (shouldFlush_spec (APState.mk {} [] 40000 1000 0) 1000).1 h⟩

/-- C4: crossfade against the last-emitted sample `L`.  When `L = 0` (in
particular when nothing is stored for the ucid, since the code reads
`_lastSamples.get(ucid) || 0`) the chunk is returned unchanged; when `L ≠ 0`
the first `min(20, length)` output samples are
`round(L*(1-t) + S[i]*t)` with `t = i/fadeLength`, and every sample at or
beyond the fade window is unchanged. -/
theorem crossfade_spec (L : ℤ) (S : List ℤ) :
    (L = 0 → applyCrossfade L S = S) ∧
    (∀ stored : List (String × ℤ), ∀ ucid, stored.lookup ucid = none →
      applyCrossfade ((stored.lookup ucid).getD 0) S = S) ∧
    (L ≠ 0 →
      (∀ i s, S.get? i = some s → i < min 20 S.length →
        (applyCrossfade L S).get? i =
          some (jsRound ((L : ℚ) * (1 - (i : ℚ) / (min 20 S.length : ℕ)) +
                         (s : ℚ) * ((i : ℚ) / (min 20 S.length : ℕ))))) ∧
      (∀ i, min 20 S.length ≤ i →
        (applyCrossfade L S).get? i = S.get? i)) := by
  refine ⟨fun hL => ?_, fun stored ucid hlook => ?_, fun hL => ⟨?_, ?_⟩⟩
  · simp [applyCrossfade, hL]
  · simp [applyCrossfade, hlook]
  · intro i s hs hi
    rcases hS : S with _ | ⟨a, rest⟩
    · rw [hS] at hs; simp at hs
    · rw [← hS]
      have hne : S.isEmpty = false := by
        rw [hS]; rfl
      simp only [applyCrossfade, hne, Bool.false_eq_true, if_false, hL, if_neg hL]
      rw [mapWithIndex_get?, hs]
      simp [hi]
  · intro i hi
    rcases hS : S with _ | ⟨a, rest⟩
    · simp [applyCrossfade]
    · rw [← hS]
      have hne : S.isEmpty = false := by
        rw [hS]; rfl
      simp only [applyCrossfade, hne, Bool.false_eq_true, if_false, hL, if_neg hL]
      rw [mapWithIndex_get?]
      rcases h : S.get? i with _ | s
      · rfl
      · have hnot : ¬ (0 + i < min 20 S.length) := by omega
        simp only [Option.map_some']
        rw [if_neg hnot]

/-- Witness for C4: crossfading `[100, 200]` against stored sample `5`
(fade window `min 20 2 = 2`), evaluated at index 0. -/
theorem crossfade_spec_witness :
    (5 : ℤ) ≠ 0 ∧
    (applyCrossfade 5 [100, 200]).get? 0 =
      some (jsRound ((5 : ℚ) * (1 - (0 : ℚ) / (min 20 ([100, 200] : List ℤ).length : ℕ)) +
                     ((100 : ℤ) : ℚ) * ((0 : ℚ) / (min 20 ([100, 200] : List ℤ).length : ℕ)))) := by
  refine ⟨by decide, (crossfade_spec 5 [100, 200]).2.2 (by decide) |>.1 0 100 rfl (by decide)⟩

/-- C5: DC-offset removal maps every sample `s` to
`round(s - mean(samples))`, and the arithmetic mean of the output has
absolute value at most 1/2. -/
theorem removeDCOffset_spec (samples : List ℤ) (h : samples ≠ []) :
    removeDCOffset samples =
      samples.map (fun s : ℤ => jsRound ((s : ℚ) - ((samples.sum : ℤ) : ℚ) / samples.length)) ∧
    |(((removeDCOffset samples).sum : ℤ) : ℚ) / (removeDCOffset samples).length| ≤ 1 / 2 := by
  have hne : samples.isEmpty = false := by
    simpa [List.isEmpty_iff] using h
  have hform : removeDCOffset samples =
      samples.map (fun s : ℤ => jsRound ((s : ℚ) - ((samples.sum : ℤ) : ℚ) / samples.length)) := by
    simp [removeDCOffset, hne]
  refine ⟨hform, ?_⟩
  set m : ℚ := ((samples.sum : ℤ) : ℚ) / samples.length with hm
  set c : ℤ := ⌊1 / 2 - m⌋ with hc
  have hpoint : ∀ s ∈ samples, jsRound ((s : ℚ) - m) = s + c := by
    intro s _
    unfold jsRound
    have : (s : ℚ) - m + 1 / 2 = (s : ℚ) + (1 / 2 - m) := by ring
    rw [this, Int.floor_int_add]
  have hmap : removeDCOffset samples = samples.map (fun s => s + c) := by
    rw [hform]
    exact List.map_congr_left hpoint
  have hsum : ∀ l : List ℤ, (l.map (fun s => s + c)).sum = l.sum + l.length * c := by
    intro l
    induction l with
    | nil => simp
    | cons a t ih => simp [ih]; ring
  have hlen : (removeDCOffset samples).length = samples.length := by
    rw [hmap, List.length_map]
  have hN : (0 : ℚ) < samples.length := by
    have : 0 < samples.length := List.length_pos.mpr h
    exact_mod_cast this
  have hmean : (((removeDCOffset samples).sum : ℤ) : ℚ) / (removeDCOffset samples).length
      = m + c := by
    rw [hmap, hsum, List.length_map, hm]
    push_cast
    field_simp
    ring
  rw [hmean]
  have h1 : (c : ℚ) ≤ 1 / 2 - m := Int.floor_le _
  have h2 : 1 / 2 - m < c + 1 := Int.lt_floor_add_one _
  rw [abs_le]
  constructor <;> linarith

/-- Witness for C5 at `[10, 11]`: mean is 21/2, both outputs are
`round(s - 21/2)` and the output mean is within 1/2 of zero. -/
theorem removeDCOffset_spec_witness :
    ([10, 11] : List ℤ) ≠ [] ∧
    |(((removeDCOffset [10, 11]).sum : ℤ) : ℚ) / (removeDCOffset [10, 11]).length| ≤ 1 / 2 :=
  ⟨by decide, (removeDCOffset_spec [10, 11] (by decide)).2⟩

/-- C8: with no live connection mapped for the ucid (no entry, or a
connection whose `readyState` is not OPEN), `sendAudioToOzonetel` returns
`false`, transmits no packet, and leaves the server state — including the
stored last-emitted samples — unchanged. -/
theorem sendAudio_noConnection (st : ServerState) (ucid : String)
    (samples : List ℤ) (h : st.hasLiveConnection ucid = false) :
    sendAudioToOzonetel st ucid samples = (false, st, []) := by
  simp [sendAudioToOzonetel, h]

/-- Witness for C8: an empty connection map has no live connection for
"call1", and sending three samples fails without any state change. -/
theorem sendAudio_noConnection_witness :
    (ServerState.mk [] []).hasLiveConnection ("call1") = false ∧
    sendAudioToOzonetel (ServerState.mk [] []) "call1" [1, 2, 3] =
      (false, ServerState.mk [] [], []) :=
  ⟨rfl, sendAudio_noConnection (ServerState.mk [] []) "call1" [1, 2, 3] rfl⟩

/-- Trimming never lengthens a string. -/
theorem jsTrim_length_le (s : String) :
    (jsTrim s).toList.length ≤ s.toList.length := by
  show ((((s.toList.dropWhile Char.isWhitespace).reverse.dropWhile
      Char.isWhitespace).reverse).length) ≤ s.toList.length
  rw [List.length_reverse]
  calc ((s.toList.dropWhile Char.isWhitespace).reverse.dropWhile
          Char.isWhitespace).length
      ≤ (s.toList.dropWhile Char.isWhitespace).reverse.length :=
        (List.dropWhile_sublist _).length_le
    _ = (s.toList.dropWhile Char.isWhitespace).length := List.length_reverse _
    _ ≤ s.toList.length := (List.dropWhile_sublist _).length_le

/-- C10: any transcription whose trimmed text is shorter than 2 characters
is rejected by `isValidTranscription`, and the post-transcription stage then
leaves the client state untouched (nothing is appended to the transcription
buffer and no response is triggered); the one-character transcription "4"
is rejected even though it matches none of the hallucination patterns. -/
theorem shortTranscription_filtered :
    (∀ t : String, (jsTrim t).toList.length < 2 →
      isValidTranscription t = false ∧
      ∀ (st : ClientState) (lang : String) (flow : FlowOutcome),
        streamTranscriptionResult st t lang flow = st) ∧
    (isValidTranscription ("4") = false ∧ isHallucination ("4") = false) := by
  constructor
  · intro t ht
    have hvalid : isValidTranscription t = false := by
      unfold isValidTranscription
      rw [if_pos ht]
    refine ⟨hvalid, fun st lang flow => ?_⟩
    have htrim : (jsTrim (jsTrim t)).toList.length < 2 :=
      lt_of_le_of_lt (jsTrim_length_le (jsTrim t)) ht
    have hvalid2 : isValidTranscription (jsTrim t) = false := by
      unfold isValidTranscription
      rw [if_pos htrim]
    unfold streamTranscriptionResult
    simp only [hvalid2, Bool.not_false, if_pos]
  · exact ⟨by decide, by decide⟩

/-- Witness for C10: the one-character transcription "I" trims to length 1
and is rejected. -/
theorem shortTranscription_filtered_witness :
    (jsTrim ("I")).toList.length < 2 ∧ isValidTranscription ("I") = false :=
  ⟨by decide, (shortTranscription_filtered.1 ("I") (by decide)).1⟩

/-! ### Field-preservation lemmas for the orchestrator pipeline stages -/

theorem gapr_processor (st : ClientState) (flow : FlowOutcome) :
    (generateAndPlayResponse st flow).processor = st.processor := by
  unfold generateAndPlayResponse
  split
  · rfl
  · split
    · rfl
    · split <;> rfl

theorem gapr_tbuffer (st : ClientState) (flow : FlowOutcome) :
    (generateAndPlayResponse st flow).tbuffer = st.tbuffer := by
  unfold generateAndPlayResponse
  split
  · rfl
  · split
    · rfl
    · split <;> rfl

theorem gapr_transcribing (st : ClientState) (flow : FlowOutcome) :
    (generateAndPlayResponse st flow).transcribing = st.transcribing := by
  unfold generateAndPlayResponse
  split
  · rfl
  · split
    · rfl
    · split <;> rfl

theorem gapr_pipelineRuns (st : ClientState) (flow : FlowOutcome) :
    (generateAndPlayResponse st flow).pipelineRuns = st.pipelineRuns := by
  unfold generateAndPlayResponse
  split
  · rfl
  · split
    · rfl
    · split <;> rfl

theorem gapr_session_isSome (st : ClientState) (flow : FlowOutcome) :
    (generateAndPlayResponse st flow).session.isSome = st.session.isSome := by
  unfold generateAndPlayResponse
  split
  · rfl
  · split
    · rfl
    · split <;> simp_all

theorem stres_processor (st : ClientState) (raw lang : String) (flow : FlowOutcome) :
    (streamTranscriptionResult st raw lang flow).processor = st.processor := by
  unfold streamTranscriptionResult
  dsimp only
  split
  · rfl
  · split
    · rw [gapr_processor]
    · rfl

theorem stres_transcribing (st : ClientState) (raw lang : String) (flow : FlowOutcome) :
    (streamTranscriptionResult st raw lang flow).transcribing = st.transcribing := by
  unfold streamTranscriptionResult
  dsimp only
  split
  · rfl
  · split
    · rw [gapr_transcribing]
    · rfl

theorem stres_pipelineRuns (st : ClientState) (raw lang : String) (flow : FlowOutcome) :
    (streamTranscriptionResult st raw lang flow).pipelineRuns = st.pipelineRuns := by
  unfold streamTranscriptionResult
  dsimp only
  split
  · rfl
  · split
    · rw [gapr_pipelineRuns]
    · rfl

theorem stres_session_isSome (st : ClientState) (raw lang : String) (flow : FlowOutcome) :
    (streamTranscriptionResult st raw lang flow).session.isSome = st.session.isSome := by
  unfold streamTranscriptionResult
  dsimp only
  split
  · rfl
  · split
    · rw [gapr_session_isSome]
    · rfl

theorem stres_tbuffer_isSome (st : ClientState) (raw lang : String) (flow : FlowOutcome) :
    (streamTranscriptionResult st raw lang flow).tbuffer.isSome = st.tbuffer.isSome := by
  unfold streamTranscriptionResult
  dsimp only
  split
  · rfl
  · split
    · rw [gapr_tbuffer]
      simp
    · simp

theorem accumulateOnly_transcribing (st : ClientState) (samples : List ℤ)
    (sampleRate now : ℚ) :
    (accumulateOnly st samples sampleRate now).transcribing = st.transcribing := by
  unfold accumulateOnly
  split
  · split <;> rfl
  · rfl

theorem accumulateOnly_pipelineRuns (st : ClientState) (samples : List ℤ)
    (sampleRate now : ℚ) :
    (accumulateOnly st samples sampleRate now).pipelineRuns = st.pipelineRuns := by
  unfold accumulateOnly
  split
  · split <;> rfl
  · rfl

theorem accumulateOnly_transcribeCalls (st : ClientState) (samples : List ℤ)
    (sampleRate now : ℚ) :
    (accumulateOnly st samples sampleRate now).transcribeCalls = st.transcribeCalls := by
  unfold accumulateOnly
  split
  · split <;> rfl
  · rfl

theorem accumulateOnly_tbuffer (st : ClientState) (samples : List ℤ)
    (sampleRate now : ℚ) :
    (accumulateOnly st samples sampleRate now).tbuffer = st.tbuffer := by
  unfold accumulateOnly
  split
  · split <;> rfl
  · rfl

/-- Entering the guarded pipeline body increments the ghost attempt counter
exactly once, and no later stage of the pipeline touches it. -/
theorem processAudioChunk_runs (st : ClientState) (now : ℚ)
    (outcome : TranscribeOutcome) (flow : FlowOutcome) (p : APState)
    (sess : SessionData) (b : TBuffer) (hp : st.processor = some p)
    (hs : st.session = some sess) (hb : st.tbuffer = some b)
    (h : st.transcribing = false) :
    (processAudioChunk st now outcome flow).pipelineRuns = st.pipelineRuns + 1 := by
  unfold processAudioChunk
  rw [hp, hs, hb]
  dsimp only
  simp only [h, Bool.false_eq_true, if_false]
  rcases hw : p.toWAVBuffer with _ | w
  · rfl
  · dsimp only
    by_cases hv : validateAudioChunk p = true
    · simp only [hv, Bool.not_true, Bool.false_eq_true, if_false]
      cases outcome with
      | error msg => rfl
      | success txt lang =>
        dsimp only
        rw [stres_pipelineRuns]
    · simp only [Bool.not_eq_true] at hv
      simp only [hv, Bool.not_false, if_true]

/-- The `transcribing` flag after the pipeline and the survival of the three
per-call components. -/
theorem processAudioChunk_post (st : ClientState) (now : ℚ)
    (outcome : TranscribeOutcome) (flow : FlowOutcome) (p : APState)
    (sess : SessionData) (b : TBuffer) (hp : st.processor = some p)
    (hs : st.session = some sess) (hb : st.tbuffer = some b)
    (h : st.transcribing = false) :
    (processAudioChunk st now outcome flow).transcribing = false ∧
    (processAudioChunk st now outcome flow).processor.isSome = true ∧
    (processAudioChunk st now outcome flow).session.isSome = true ∧
    (processAudioChunk st now outcome flow).tbuffer.isSome = true := by
  unfold processAudioChunk
  rw [hp, hs, hb]
  dsimp only
  simp only [h, Bool.false_eq_true, if_false]
  rcases hw : p.toWAVBuffer with _ | w
  · simp [hp, hs, hb]
  · dsimp only
    by_cases hv : validateAudioChunk p = true
    · simp only [hv, Bool.not_true, Bool.false_eq_true, if_false]
      cases outcome with
      | error msg => simp [hp, hs, hb]
      | success txt lang =>
        refine ⟨rfl, rfl, ?_, ?_⟩
        · dsimp only
          rw [Option.isSome_map', stres_session_isSome]
          dsimp only
          rfl
        · dsimp only
          rw [stres_tbuffer_isSome]
          dsimp only
          rfl
    · simp only [Bool.not_eq_true] at hv
      simp only [hv, Bool.not_false, if_true]
      simp [hs, hb]

/-- A chunk that passes the flush-and-not-transcribing guard enters the
pipeline exactly once. -/
theorem handleAudioChunk_attempts (st : ClientState) (samples : List ℤ)
    (sampleRate now : ℚ) (outcome : TranscribeOutcome) (flow : FlowOutcome)
    (q : APState) (sess : SessionData) (b : TBuffer)
    (hp : st.processor = some q) (hs : st.session = some sess)
    (hb : st.tbuffer = some b) (h : st.transcribing = false)
    (hne : samples.isEmpty = false)
    (hflush : (q.addSamples samples sampleRate now).shouldSendToAPI now = true) :
    (handleAudioChunk st samples sampleRate now outcome flow).pipelineRuns =
      st.pipelineRuns + 1 := by
  have hacc : accumulateOnly st samples sampleRate now =
      { st with processor := some (q.addSamples samples sampleRate now),
                session := some { sess with totalAudioMs :=
                  sess.totalAudioMs + ((samples.length : ℚ) / sampleRate) * 1000 } } := by
    unfold accumulateOnly
    rw [hp, hs]
    dsimp only
    simp only [hne, Bool.false_eq_true, if_false]
  have hap : (accumulateOnly st samples sampleRate now).processor =
      some (q.addSamples samples sampleRate now) := by rw [hacc]
  have has : (accumulateOnly st samples sampleRate now).session =
      some { sess with totalAudioMs :=
        sess.totalAudioMs + ((samples.length : ℚ) / sampleRate) * 1000 } := by
    rw [hacc]
  have hat : (accumulateOnly st samples sampleRate now).tbuffer = some b := by
    rw [accumulateOnly_tbuffer, hb]
  have htr : (accumulateOnly st samples sampleRate now).transcribing = false := by
    rw [accumulateOnly_transcribing, h]
  unfold handleAudioChunk
  rw [hp, hs]
  dsimp only
  simp only [hne, Bool.false_eq_true, if_false]
  simp only [hflush, htr, Bool.not_false, Bool.and_self, if_true]
  exact (processAudioChunk_runs _ now outcome flow _ _ b hap has hat htr).trans
    (by rw [accumulateOnly_pipelineRuns])

/-- C1: while `transcribing` is already set for a call, the transcribe
pipeline is a strict no-op (`processAudioChunk` returns the state unchanged:
no external transcription call, no ghost-counter change, nothing recorded
for later), and `handleAudioChunk` degenerates to pure accumulation: the
pipeline-entry and external-call counters keep their values and the flag
stays set. -/
theorem transcribe_mutex (st : ClientState) (samples : List ℤ)
    (sampleRate now : ℚ) (outcome : TranscribeOutcome) (flow : FlowOutcome)
    (h : st.transcribing = true) :
    processAudioChunk st now outcome flow = st ∧
    handleAudioChunk st samples sampleRate now outcome flow =
      accumulateOnly st samples sampleRate now ∧
    (handleAudioChunk st samples sampleRate now outcome flow).transcribeCalls =
      st.transcribeCalls ∧
    (handleAudioChunk st samples sampleRate now outcome flow).pipelineRuns =
      st.pipelineRuns ∧
    (handleAudioChunk st samples sampleRate now outcome flow).transcribing = true := by
  have hpac : processAudioChunk st now outcome flow = st := by
    unfold processAudioChunk
    rcases hp : st.processor with _ | p
    · rfl
    · rcases hs : st.session with _ | sess
      · rfl
      · rcases hb : st.tbuffer with _ | b
        · rfl
        · dsimp only
          rw [h]
          rfl
  have hha : handleAudioChunk st samples sampleRate now outcome flow =
      accumulateOnly st samples sampleRate now := by
    unfold handleAudioChunk accumulateOnly
    rcases hp : st.processor with _ | p
    · rfl
    · rcases hs : st.session with _ | sess
      · rfl
      · dsimp only
        by_cases hne : samples.isEmpty = true
        · rw [hne]
          rfl
        · simp only [Bool.not_eq_true] at hne
          simp only [hne, Bool.false_eq_true, if_false, h, Bool.not_true,
            Bool.and_false]
  refine ⟨hpac, hha, ?_, ?_, ?_⟩
  · rw [hha, accumulateOnly_transcribeCalls]
  · rw [hha, accumulateOnly_pipelineRuns]
  · rw [hha, accumulateOnly_transcribing, h]

/-- Witness for C1: a live session whose `transcribing` flag is set; the
pipeline invocation returns the state unchanged. -/
theorem transcribe_mutex_witness :
    (ClientState.mk (some (SessionData.mk ("en") ("alloy") 0 0 0))
        (some (APState.init streamingAPConfig 0))
        (some (TBuffer.mk ("") ("") ("en"))) true false 3 2 1).transcribing = true ∧
    processAudioChunk
        (ClientState.mk (some (SessionData.mk ("en") ("alloy") 0 0 0))
          (some (APState.init streamingAPConfig 0))
          (some (TBuffer.mk ("") ("") ("en"))) true false 3 2 1)
        0 (TranscribeOutcome.error ("boom")) FlowOutcome.ok =
      ClientState.mk (some (SessionData.mk ("en") ("alloy") 0 0 0))
        (some (APState.init streamingAPConfig 0))
        (some (TBuffer.mk ("") ("") ("en"))) true false 3 2 1 :=
  ⟨rfl,
   (transcribe_mutex
      (ClientState.mk (some (SessionData.mk ("en") ("alloy") 0 0 0))
        (some (APState.init streamingAPConfig 0))
        (some (TBuffer.mk ("") ("") ("en"))) true false 3 2 1)
      [1] 8000 0 (TranscribeOutcome.error ("boom")) FlowOutcome.ok rfl).1⟩

/-- C7: for a call with a live session whose `transcribing` flag is clear,
the transcribe-and-respond pipeline leaves `transcribing` false on every
path — success, quality-gate rejection, empty WAV buffer, and a throwing
transcription collaborator — keeps the per-call components alive, and a
subsequent non-empty chunk that meets the flush condition enters the
pipeline again (the attempt counter increments). -/
theorem transcribing_cleared (st : ClientState) (now : ℚ)
    (outcome : TranscribeOutcome) (flow : FlowOutcome)
    (p : APState) (sess : SessionData) (b : TBuffer)
    (hp : st.processor = some p) (hs : st.session = some sess)
    (hb : st.tbuffer = some b) (h : st.transcribing = false) :
    (processAudioChunk st now outcome flow).transcribing = false ∧
    (processAudioChunk st now outcome flow).processor.isSome = true ∧
    (processAudioChunk st now outcome flow).session.isSome = true ∧
    (processAudioChunk st now outcome flow).tbuffer.isSome = true ∧
    (∀ (samples : List ℤ) (sampleRate now2 : ℚ)
       (outcome2 : TranscribeOutcome) (flow2 : FlowOutcome)
       (q : APState) (sess2 : SessionData) (b2 : TBuffer),
      (processAudioChunk st now outcome flow).processor = some q →
      (processAudioChunk st now outcome flow).session = some sess2 →
      (processAudioChunk st now outcome flow).tbuffer = some b2 →
      samples.isEmpty = false →
      (q.addSamples samples sampleRate now2).shouldSendToAPI now2 = true →
      (handleAudioChunk (processAudioChunk st now outcome flow) samples
          sampleRate now2 outcome2 flow2).pipelineRuns =
        (processAudioChunk st now outcome flow).pipelineRuns + 1) := by
  obtain ⟨h1, h2, h3, h4⟩ := processAudioChunk_post st now outcome flow p sess b hp hs hb h
  refine ⟨h1, h2, h3, h4, ?_⟩
  intro samples sampleRate now2 outcome2 flow2 q sess2 b2 hq hsess2 hb2 hne hflush
  exact handleAudioChunk_attempts _ samples sampleRate now2 outcome2 flow2
    q sess2 b2 hq hsess2 hb2 h1 hne hflush

/-- Witness for C7: a fresh streaming session processed with a throwing
transcription collaborator ends with `transcribing = false`. -/
theorem transcribing_cleared_witness :
    (ClientState.mk (some (SessionData.mk ("en") ("alloy") 0 0 0))
        (some (APState.init streamingAPConfig 0))
        (some (TBuffer.mk ("") ("") ("en"))) false false 0 0 0).transcribing = false ∧
    (processAudioChunk
        (ClientState.mk (some (SessionData.mk ("en") ("alloy") 0 0 0))
          (some (APState.init streamingAPConfig 0))
          (some (TBuffer.mk ("") ("") ("en"))) false false 0 0 0)
        0 (TranscribeOutcome.error ("boom")) FlowOutcome.ok).transcribing = false :=
  ⟨rfl,
   (transcribing_cleared
      (ClientState.mk (some (SessionData.mk ("en") ("alloy") 0 0 0))
        (some (APState.init streamingAPConfig 0))
        (some (TBuffer.mk ("") ("") ("en"))) false false 0 0 0)
      0 (TranscribeOutcome.error ("boom")) FlowOutcome.ok
      (APState.init streamingAPConfig 0) (SessionData.mk ("en") ("alloy") 0 0 0)
      (TBuffer.mk ("") ("") ("en")) rfl rfl rfl rfl).1⟩

/-! ### Packetization lemmas (C3) -/

theorem applyFadeoutPadding_length (l : List ℤ) (t : ℕ) :
    (applyFadeoutPadding l t).length = max l.length t := by
  unfold applyFadeoutPadding
  split
  · rename_i hge
    exact (Nat.max_eq_left hge).symm
  · rename_i hlt
    simp only [List.length_append, List.length_map, List.length_range]
    omega

theorem removeDCOffset_length (l : List ℤ) :
    (removeDCOffset l).length = l.length := by
  unfold removeDCOffset
  split
  · rfl
  · simp

theorem applyCrossfade_length (L : ℤ) (l : List ℤ) :
    (applyCrossfade L l).length = l.length := by
  unfold applyCrossfade
  split
  · rfl
  · split
    · rfl
    · rw [mapWithIndex_length]

theorem chunkPackets_small (l : List ℤ) (h : l ≠ []) (h2 : l.length ≤ 400) :
    chunkPackets l =
      [if l.length < 400 then applyFadeoutPadding l 400 else l] := by
  have hne : l.isEmpty = false := by simpa [List.isEmpty_iff] using h
  have hdrop : l.drop 400 = [] := List.drop_eq_nil_of_le h2
  have htake : l.take 400 = l := List.take_of_length_le h2
  rw [chunkPackets]
  simp only [hne, Bool.false_eq_true, if_false, htake, hdrop]
  rw [chunkPackets]
  by_cases hlt : l.length < 400
  · have hpadlen : (applyFadeoutPadding l 400).length = 400 := by
      rw [applyFadeoutPadding_length]
      omega
    simp [hlt, hpadlen]
  · have h400 : l.length = 400 := by omega
    simp [hlt, h400]

theorem chunkPackets_large (l : List ℤ) (h : 400 < l.length) :
    chunkPackets l = l.take 400 :: chunkPackets (l.drop 400) := by
  have hne : l.isEmpty = false := by
    have : l ≠ [] := by
      intro hcon
      rw [hcon] at h
      simp at h
    simpa [List.isEmpty_iff] using this
  have htake : (l.take 400).length = 400 := by
    rw [List.length_take]
    omega
  rw [chunkPackets]
  simp only [hne, Bool.false_eq_true, if_false, htake]
  simp only [if_neg (lt_irrefl 400)]
  simp [htake]

theorem chunkPackets_length_aux : ∀ (n : ℕ) (l : List ℤ), l.length = n → l ≠ [] →
    (chunkPackets l).length = (l.length + 399) / 400 := by
  intro n
  induction n using Nat.strong_induction_on with
  | _ n ih =>
    intro l hlen hne
    by_cases h2 : l.length ≤ 400
    · rw [chunkPackets_small l hne h2]
      have hpos : 0 < l.length := List.length_pos.mpr hne
      simp only [List.length_cons, List.length_nil]
      omega
    · push_neg at h2
      rw [chunkPackets_large l h2]
      have hd : (l.drop 400).length = l.length - 400 := by simp
      have hdne : l.drop 400 ≠ [] := by
        intro hcon
        rw [hcon] at hd
        simp at hd
        omega
      have hrec := ih (l.length - 400) (by omega) (l.drop 400) (by simp) hdne
      simp only [List.length_cons, hrec, hd]
      omega

theorem chunkPackets_all400 : ∀ (n : ℕ) (l : List ℤ), l.length = n →
    ∀ p ∈ chunkPackets l, p.length = 400 := by
  intro n
  induction n using Nat.strong_induction_on with
  | _ n ih =>
    intro l hlen p hp
    rcases eq_or_ne l [] with hl | hl
    · rw [hl, chunkPackets] at hp
      simp at hp
    · by_cases h2 : l.length ≤ 400
      · rw [chunkPackets_small l hl h2] at hp
        simp only [List.mem_singleton] at hp
        subst hp
        by_cases hlt : l.length < 400
        · rw [if_pos hlt, applyFadeoutPadding_length]
          omega
        · rw [if_neg hlt]
          omega
      · push_neg at h2
        rw [chunkPackets_large l h2] at hp
        rcases List.mem_cons.mp hp with hp2 | hp2
        · rw [hp2, List.length_take]
          omega
        · exact ih (l.length - 400) (by omega) (l.drop 400) (by simp) p hp2

theorem chunkPackets_getLast_aux : ∀ (n : ℕ) (l : List ℤ), l.length = n →
    l ≠ [] → l.length % 400 ≠ 0 →
    (chunkPackets l).getLast? =
      some (applyFadeoutPadding (l.drop (400 * (l.length / 400))) 400) := by
  intro n
  induction n using Nat.strong_induction_on with
  | _ n ih =>
    intro l hlen hne hmod
    by_cases h2 : l.length ≤ 400
    · have hlt : l.length < 400 := by
        rcases Nat.lt_or_ge l.length 400 with h | h
        · exact h
        · omega
      have hdiv : l.length / 400 = 0 := Nat.div_eq_of_lt hlt
      rw [chunkPackets_small l hne h2, if_pos hlt, hdiv]
      simp
    · push_neg at h2
      rw [chunkPackets_large l h2]
      have hd : (l.drop 400).length = l.length - 400 := by simp
      have hdne : l.drop 400 ≠ [] := by
        intro hcon
        rw [hcon] at hd
        simp at hd
        omega
      have hdmod : (l.drop 400).length % 400 ≠ 0 := by
        rw [hd]
        omega
      have hrec := ih (l.length - 400) (by omega) (l.drop 400) (by simp) hdne hdmod
      have hcne : chunkPackets (l.drop 400) ≠ [] := by
        intro hcon
        rw [hcon] at hrec
        simp at hrec
      rcases hc : chunkPackets (l.drop 400) with _ | ⟨a, rest⟩
      · exact absurd hc hcne
      · rw [List.getLast?_cons_cons]
        rw [hc] at hrec
        rw [hrec]
        rw [List.drop_drop, hd]
        have harith : 400 + 400 * ((l.length - 400) / 400) =
            400 * (l.length / 400) := by omega
        rw [harith]

theorem shapedAudio_length (st : ServerState) (ucid : String) (samples : List ℤ) :
    (shapedAudio st ucid samples).length = samples.length := by
  unfold shapedAudio
  rw [applyCrossfade_length, removeDCOffset_length]

theorem sendAudio_packets (st : ServerState) (ucid : String) (samples : List ℤ)
    (hconn : st.hasLiveConnection ucid = true) :
    (sendAudioToOzonetel st ucid samples).2.2 =
      (chunkPackets (shapedAudio st ucid samples)).map (mkMediaPacket ucid) := by
  unfold sendAudioToOzonetel shapedAudio
  rw [hconn, if_pos rfl]

/-- C3: the shaped audio is emitted as exactly `ceil(N/400)` packets of
exactly 400 samples each; when the final slice is shorter than 400 samples
(`N % 400 ≠ 0`), the last emitted packet is that slice extended by the
explicit fade `pad[i] = round(lastValue * (1 - i/padLength))` toward zero,
not by literal zero padding. -/
theorem packetization_spec (st : ServerState) (ucid : String) (samples : List ℤ)
    (hconn : st.hasLiveConnection ucid = true) (hne : samples ≠ []) :
    (sendAudioToOzonetel st ucid samples).1 = true ∧
    (sendAudioToOzonetel st ucid samples).2.2.length =
      (samples.length + 399) / 400 ∧
    (∀ pk ∈ (sendAudioToOzonetel st ucid samples).2.2,
      pk.samples.length = 400 ∧ pk.numberOfFrames = 400) ∧
    (samples.length % 400 ≠ 0 →
      (sendAudioToOzonetel st ucid samples).2.2.getLast? =
        some (mkMediaPacket ucid
          (applyFadeoutPadding
            ((shapedAudio st ucid samples).drop (400 * (samples.length / 400)))
            400)) ∧
      applyFadeoutPadding
          ((shapedAudio st ucid samples).drop (400 * (samples.length / 400))) 400 =
        ((shapedAudio st ucid samples).drop (400 * (samples.length / 400))) ++
          (List.range (400 - samples.length % 400)).map
            (fun i : ℕ =>
              jsRound
                (((((shapedAudio st ucid samples).drop
                      (400 * (samples.length / 400))).getLast?.getD 0 : ℤ) : ℚ) *
                  (1 - (i : ℚ) / ((400 - samples.length % 400 : ℕ) : ℚ))))) := by
  have hSlen : (shapedAudio st ucid samples).length = samples.length :=
    shapedAudio_length st ucid samples
  have hSne : shapedAudio st ucid samples ≠ [] := by
    intro hcon
    have := hSlen
    rw [hcon] at this
    simp at this
    exact hne (List.length_eq_zero.mp this.symm)
  have hpk := sendAudio_packets st ucid samples hconn
  have hok : (sendAudioToOzonetel st ucid samples).1 = true := by
    unfold sendAudioToOzonetel
    rw [hconn, if_pos rfl]
  refine ⟨hok, ?_, ?_, ?_⟩
  · rw [hpk, List.length_map,
      chunkPackets_length_aux (shapedAudio st ucid samples).length _ rfl hSne, hSlen]
  · intro pk hmem
    rw [hpk] at hmem
    rcases List.mem_map.mp hmem with ⟨chunk, hchunk, hpkEq⟩
    have h400 := chunkPackets_all400 (shapedAudio st ucid samples).length
      (shapedAudio st ucid samples) rfl chunk hchunk
    constructor
    · rw [← hpkEq]
      exact h400
    · rw [← hpkEq]
      show chunk.length = 400
      exact h400
  · intro hmod
    have hmodS : (shapedAudio st ucid samples).length % 400 ≠ 0 := by
      rw [hSlen]
      exact hmod
    have hlast := chunkPackets_getLast_aux (shapedAudio st ucid samples).length
      (shapedAudio st ucid samples) rfl hSne hmodS
    rw [hSlen] at hlast
    constructor
    · rw [hpk, List.getLast?_map, hlast]
      rfl
    · set tail := (shapedAudio st ucid samples).drop (400 * (samples.length / 400))
        with htail
    
      have htlen : tail.length = samples.length % 400 := by
        rw [htail, List.length_drop, hSlen]
        omega
      have htlt : ¬ tail.length ≥ 400 := by
        rw [htlen]
        omega
      unfold applyFadeoutPadding
      rw [if_neg htlt, htlen]

/-! ### WAV round-trip lemmas (C6) -/

theorem expectBytes_append (bs rest : List ℕ) :
    expectBytes bs (bs ++ rest) = some rest := by
  induction bs with
  | nil => rfl
  | cons b t ih => simp [expectBytes, expectByte, ih]

theorem fromLE4_uint32 (v : ℕ) (h : v < 4294967296) :
    fromLE4 (v % 256) (v / 256 % 256) (v / 65536 % 256) (v / 16777216 % 256) = v := by
  unfold fromLE4
  omega

theorem fromLE2_uint16 (v : ℕ) (h : v < 65536) :
    fromLE2 (v % 256) (v / 256 % 256) = v := by
  unfold fromLE2
  omega

theorem readU32_append (v : ℕ) (rest : List ℕ) (h : v < 4294967296) :
    readU32 (uint32LE v ++ rest) = some (v, rest) := by
  simp only [uint32LE, List.cons_append, List.nil_append, readU32]
  rw [fromLE4_uint32 v h]

theorem readU16_append (v : ℕ) (rest : List ℕ) (h : v < 65536) :
    readU16 (uint16LE v ++ rest) = some (v, rest) := by
  simp only [uint16LE, List.cons_append, List.nil_append, readU16]
  rw [fromLE2_uint16 v h]

theorem decInt16_int16LE (s : ℤ) (h1 : -32768 ≤ s) (h2 : s < 32768) :
    decInt16 ((s % 65536).toNat % 256) ((s % 65536).toNat / 256) = s := by
  unfold decInt16 fromLE2
  dsimp only
  split <;> omega

theorem decodeSamplesLE_flatMap (l : List ℤ)
    (h : ∀ s ∈ l, -32768 ≤ s ∧ s < 32768) :
    decodeSamplesLE (l.flatMap int16LE) = some l := by
  induction l with
  | nil => rfl
  | cons s t ih =>
    have hs := h s (List.mem_cons_self s t)
    have ht : ∀ x ∈ t, -32768 ≤ x ∧ x < 32768 :=
      fun x hx => h x (List.mem_cons_of_mem s hx)
    have hcons : (s :: t).flatMap int16LE =
        (s % 65536).toNat % 256 :: (s % 65536).toNat / 256 :: t.flatMap int16LE := rfl
    rw [hcons]
    simp only [decodeSamplesLE, ih ht, Option.map_some']
    rw [decInt16_int16LE s hs.1 hs.2]

theorem flatMap_int16LE_length (l : List ℤ) :
    (l.flatMap int16LE).length = l.length * 2 := by
  induction l with
  | nil => rfl
  | cons s t ih =>
    show (int16LE s ++ t.flatMap int16LE).length = (t.length + 1) * 2
    simp only [int16LE, List.cons_append, List.nil_append, List.length_cons, ih]
    omega

theorem wavBytes_length (samples : List ℤ) :
    (wavBytes {} samples).length = 44 + samples.length * 2 := by
  unfold wavBytes
  simp only [uint32LE, uint16LE, List.length_append, List.length_cons,
    List.length_nil, flatMap_int16LE_length]

theorem wav_roundtrip (samples : List ℤ)
    (hbound : 36 + samples.length * 2 < 4294967296)
    (hrange : ∀ s ∈ samples, -32768 ≤ s ∧ s < 32768) :
    decodeWAV (wavBytes {} samples) =
      some (WavInfo.mk (36 + samples.length * 2) 1 8000 16000 2 16
        (samples.length * 2) samples) := by
  have hw : wavBytes {} samples =
      [82, 73, 70, 70] ++
        (uint32LE (36 + samples.length * 2) ++
          ([87, 65, 86, 69, 102, 109, 116, 32, 16, 0, 0, 0, 1, 0] ++
            (uint16LE 1 ++
              (uint32LE 8000 ++
                (uint32LE 16000 ++
                  (uint16LE 2 ++
                    (uint16LE 16 ++
                      ([100, 97, 116, 97] ++
                        (uint32LE (samples.length * 2) ++
                          samples.flatMap int16LE))))))))) := rfl
  rw [hw]
  unfold decodeWAV
  rw [expectBytes_append]
  simp only [Option.bind_eq_bind, Option.some_bind]
  rw [readU32_append _ _ (by omega)]
  simp only [Option.some_bind]
  rw [expectBytes_append]
  simp only [Option.some_bind]
  rw [readU16_append 1 _ (by omega)]
  simp only [Option.some_bind]
  rw [readU32_append 8000 _ (by omega)]
  simp only [Option.some_bind]
  rw [readU32_append 16000 _ (by omega)]
  simp only [Option.some_bind]
  rw [readU16_append 2 _ (by omega)]
  simp only [Option.some_bind]
  rw [readU16_append 16 _ (by omega)]
  simp only [Option.some_bind]
  rw [expectBytes_append]
  simp only [Option.some_bind]
  rw [readU32_append _ _ (by omega)]
  simp only [Option.some_bind]
  rw [if_pos ⟨trivial, (flatMap_int16LE_length samples).symm⟩]
  rw [decodeSamplesLE_flatMap samples hrange]
  rfl

/-- C6: `toWAVBuffer` is `none` exactly on an empty buffer; at the default
configuration (8000 Hz, 16-bit, mono) a non-empty buffer of `N` in-range
int16 samples encodes to exactly `44 + N*2` bytes whose RIFF/WAVE header
declares PCM format 1, 1 channel, 8000 Hz, byte rate 16000, block align 2
and 16 bits per sample, and decoding recovers the identical header fields
and sample sequence. -/
theorem toWAV_spec (st : APState) :
    (st.toWAVBuffer = none ↔ st.samples = []) ∧
    (st.config = {} → st.samples ≠ [] →
      (∀ s ∈ st.samples, -32768 ≤ s ∧ s < 32768) →
      36 + st.samples.length * 2 < 4294967296 →
      st.toWAVBuffer = some (wavBytes {} st.samples) ∧
      (wavBytes {} st.samples).length = 44 + st.samples.length * 2 ∧
      decodeWAV (wavBytes {} st.samples) =
        some (WavInfo.mk (36 + st.samples.length * 2) 1 8000 16000 2 16
          (st.samples.length * 2) st.samples)) := by
  constructor
  · by_cases hz : st.samples.length = 0
    · simp [APState.toWAVBuffer, hz, List.length_eq_zero.mp hz]
    · simp only [APState.toWAVBuffer, hz, if_false]
      constructor
      · intro hcon
        exact absurd hcon (Option.some_ne_none _)
      · intro hcon
        exact absurd (by rw [hcon]; rfl) hz
  · intro hcfg hne hrange hbound
    refine ⟨?_, wavBytes_length st.samples, wav_roundtrip st.samples hbound hrange⟩
    unfold APState.toWAVBuffer
    rw [if_neg (fun hz => hne (List.length_eq_zero.mp hz)), hcfg]

/-- Witness for C6: the two-sample buffer `[5, -3]` encodes to a WAV file
that decodes back to itself with the expected header fields. -/
theorem toWAV_spec_witness :
    (APState.mk {} [5, -3] 2 0 0).samples ≠ [] ∧
    decodeWAV (wavBytes {} [5, -3]) =
      some (WavInfo.mk 40 1 8000 16000 2 16 4 [5, -3]) := by
  refine ⟨by decide, ?_⟩
  exact ((toWAV_spec (APState.mk {} [5, -3] 2 0 0)).2 rfl (by decide) (by decide)
    (by norm_num)).2.2

/-- Witness for C3: one live connection, three samples, hence a single
padded packet (`ceil(3/400) = 1`). -/
theorem packetization_spec_witness :
    (ServerState.mk [(("u1"), Conn.mk 1)] []).hasLiveConnection ("u1") = true ∧
    (sendAudioToOzonetel (ServerState.mk [(("u1"), Conn.mk 1)] []) ("u1")
        [7, 8, 9]).2.2.length = (([7, 8, 9] : List ℤ).length + 399) / 400 := by
  refine ⟨by decide, ?_⟩
  exact (packetization_spec (ServerState.mk [(("u1"), Conn.mk 1)] []) ("u1")
    [7, 8, 9] (by decide) (by decide)).2.1

/-- C9 counterexample: the streaming client's `handleAudioChunk` applies no
first-packet/sample-rate filter: immediately after `handleStreamStart`, the
call's very first media packet with `sampleRate = 16000` IS buffered (the
processor's sample buffer becomes `[1, 2, 3]`) and IS counted (the session's
`totalAudioMs` grows by `3/16000*1000 = 3/16` ms). -/
theorem firstPacket16k_counterexample :
    ((handleAudioChunk (handleStreamStart ("en") ("alloy") 0) [1, 2, 3] 16000 0
        (TranscribeOutcome.error ("x")) FlowOutcome.ok).processor.map
      APState.samples) = some [1, 2, 3] ∧
    ((handleAudioChunk (handleStreamStart ("en") ("alloy") 0) [1, 2, 3] 16000 0
        (TranscribeOutcome.error ("x")) FlowOutcome.ok).session.map
      SessionData.totalAudioMs) = some (3 / 16) := by
  have hact : detectAudioActivity streamingAPConfig [1, 2, 3] = false := by
    unfold detectAudioActivity
    simp only [decide_eq_false_iff_not, not_lt]
    norm_num [streamingAPConfig]
  have hadd : (APState.init streamingAPConfig 0).addSamples [1, 2, 3] 16000 0 =
      APState.mk streamingAPConfig [1, 2, 3] 3 0 1 := by
    unfold APState.addSamples APState.init
    simp [hact]
  have hflush : (APState.mk streamingAPConfig [1, 2, 3] 3 0 1).shouldSendToAPI 0 =
      false := by
    unfold APState.shouldSendToAPI APState.getDurationMs APState.isSilent
    norm_num [streamingAPConfig]
  unfold handleAudioChunk handleStreamStart
  dsimp only
  simp only [List.isEmpty_cons, Bool.false_eq_true, if_false]
  rw [hadd, hflush]
  simp only [Bool.false_and, Bool.false_eq_true, if_false]
  unfold accumulateOnly
  dsimp only
  simp only [List.isEmpty_cons, Bool.false_eq_true, if_false]
  rw [hadd]
  norm_num


/-- A non-first 8 kHz media packet for the current call is counted and
buffered by `handleMediaEvent`. -/
theorem handleMediaEvent_8k (st : DesignerState) (ucid : String)
    (data2 : InMediaData) (cc : CurrentCall)
    (hcc : st.currentCall = some cc) (hucid : cc.ucid = ucid)
    (hfirst : cc.firstMediaReceived = true) (hrate : data2.sampleRate = 8000) :
    ((handleMediaEvent st ucid data2).currentCall.map CurrentCall.mediaPackets) =
      some (cc.mediaPackets + 1) ∧
    (handleMediaEvent st ucid data2).audioBuffer =
      st.audioBuffer.map (fun buf => buf ++ [data2]) := by
  unfold handleMediaEvent
  rw [hcc]
  dsimp only
  rw [if_neg (by simp [hucid])]
  simp only [hfirst, Bool.not_true, Bool.false_and, Bool.false_eq_true, if_false]
  rw [if_pos hrate]
  constructor
  · split <;> rfl
  · split <;> rfl

/-- C9 (amended): in the designer route's `StreamClient.handleMediaEvent`,
a first media packet whose `sampleRate` is 16000 is ignored — it only marks
`firstMediaReceived`, leaving the audio buffer, the packet counter and the
transcription trigger counter untouched — and a subsequent 8 kHz packet for
the call is then processed normally (counted and buffered). -/
theorem firstPacket16k_designer (st : DesignerState) (ucid : String)
    (data : InMediaData) (cc : CurrentCall)
    (hcc : st.currentCall = some cc) (hucid : cc.ucid = ucid)
    (hfirst : cc.firstMediaReceived = false) (hrate : data.sampleRate = 16000) :
    handleMediaEvent st ucid data =
      { st with currentCall := some { cc with firstMediaReceived := true } } ∧
    (handleMediaEvent st ucid data).audioBuffer = st.audioBuffer ∧
    ((handleMediaEvent st ucid data).currentCall.map CurrentCall.mediaPackets) =
      some cc.mediaPackets ∧
    (handleMediaEvent st ucid data).transcriptionTriggers =
      st.transcriptionTriggers ∧
    (∀ data2 : InMediaData, data2.sampleRate = 8000 →
      ((handleMediaEvent (handleMediaEvent st ucid data) ucid data2).currentCall.map
        CurrentCall.mediaPackets) = some (cc.mediaPackets + 1) ∧
      (handleMediaEvent (handleMediaEvent st ucid data) ucid data2).audioBuffer =
        st.audioBuffer.map (fun buf => buf ++ [data2])) := by
  have h1 : handleMediaEvent st ucid data =
      { st with currentCall := some { cc with firstMediaReceived := true } } := by
    unfold handleMediaEvent
    rw [hcc]
    dsimp only
    rw [if_neg (by simp [hucid])]
    simp [hfirst, hrate]
  refine ⟨h1, by rw [h1], by rw [h1]; rfl, by rw [h1], ?_⟩
  intro data2 hrate2
  rw [h1]
  exact handleMediaEvent_8k
    { st with currentCall := some { cc with firstMediaReceived := true } }
    ucid data2 { cc with firstMediaReceived := true } rfl hucid rfl hrate2

/-- Witness for the amended C9: a fresh call "X1" whose first packet arrives
at 16 kHz; only `firstMediaReceived` flips. -/
theorem firstPacket16k_designer_witness :
    (handleStartEvent ("X1")).currentCall = some (CurrentCall.mk ("X1") 0 false) ∧
    handleMediaEvent (handleStartEvent ("X1")) ("X1")
        (InMediaData.mk [1, 2] 16 16000 1 2) =
      { handleStartEvent ("X1") with
        currentCall := some (CurrentCall.mk ("X1") 0 true) } := by
  refine ⟨rfl, ?_⟩
  exact (firstPacket16k_designer (handleStartEvent ("X1")) ("X1")
    (InMediaData.mk [1, 2] 16 16000 1 2) (CurrentCall.mk ("X1") 0 false)
    rfl rfl rfl rfl).1

end VoxFlow
